import Mathlib

/-!
Verification of `pdftext/extraction.py`: a shallow embedding of the parallel
page-extraction pipeline and hierarchical text assembler, together with proofs
about the partitioning step (`_get_pages`), the assembly step
(`dictionary_output`, `_process_span`), the text facade (`plain_text_output`,
`paginated_plain_text_output`) and input validation (`_process_pdf`).

Modelling conventions:
* Python dicts for blocks/lines are embedded as structures carrying their
  structural fields plus an `extra` association list holding every other
  (transient) key.  Deleting all keys outside a whitelist becomes filtering
  `extra` by that whitelist.
* The `chars` key of a span dict is an `Option`: `none` models the key having
  been deleted (`del span["chars"]`).  Spans produced by inference always
  carry the key (`some _`).
* Floats are modelled as rationals: the claims under check are about which
  scalings are applied, not about rounding.
* Collaborators that live outside `src/` (`pypdfium2`, `get_pdfium_chars`,
  `inference`, `get_model`, `merge_text`, `postprocess_text`,
  `handle_hyphens`, `sort_blocks`, `settings.WORKER_PAGE_THRESHOLD`) are
  abstract parameters, constrained only by the spec's stated contracts;
  definitions modelled from the spec rather than from source say so in their
  doc comment.
* Calls to external collaborators that touch the document are recorded in an
  event trace, so that temporal claims ("before any worker is dispatched")
  become statements about the order of the produced trace.
-/

namespace Pdftext

/-- A bounding box, four coordinates `(x0, y0, x1, y1)`. -/
structure Rect where
  x0 : ℚ
  y0 : ℚ
  x1 : ℚ
  y1 : ℚ
deriving Repr, DecidableEq

/-- Modelled from the spec: `pdftext.pdf.utils.unnormalize_bbox` is not under
`src/`; §4.1 of the spec states it multiplies x-coordinates by the page width
and y-coordinates by the page height, with no clamping. -/
def unnormalize_bbox (bbox : Rect) (page_width page_height : ℚ) : Rect :=
  ⟨bbox.x0 * page_width, bbox.y0 * page_height,
   bbox.x1 * page_width, bbox.y1 * page_height⟩

/-- Modelled from the spec: a character record produced by inference (not under
`src/`); §3 of the spec gives it a bbox plus glyph-metadata fields, embedded
here as the association list `meta`. -/
structure PdfChar where
  bbox : Rect
  meta : List (String × String)
deriving Repr, DecidableEq

/-- Modelled from the spec: a span dict produced by inference (not under
`src/`); §3 of the spec gives it exactly the fields bbox, text and chars.
`chars = none` models the dict after `del span["chars"]`. -/
structure Span where
  bbox : Rect
  text : String
  chars : Option (List PdfChar)
deriving Repr, DecidableEq

/-- Modelled from the spec: a line dict produced by inference (not under
`src/`); §3 of the spec gives it bbox, spans and transient fields, embedded
here as the association list `extra`. -/
structure Line where
  bbox : Rect
  spans : List Span
  extra : List (String × String)
deriving Repr, DecidableEq

/-- Modelled from the spec: a block dict produced by inference (not under
`src/`); §3 of the spec gives it bbox, lines and transient fields, embedded
here as the association list `extra`. -/
structure Block where
  bbox : Rect
  lines : List Line
  extra : List (String × String)
deriving Repr, DecidableEq

/-- Modelled from the spec: a per-page inference result (not under `src/`);
§3 of the spec gives it width, height and blocks. -/
structure Page where
  width : ℚ
  height : ℚ
  blocks : List Block
deriving Repr, DecidableEq

/-- Modelled from the spec: the opaque `pypdfium2.PdfDocument` handle, exposing
`len(pdf_doc)` (its page count) and the one-time `init_forms` mutation, which
is recorded in the `formsInited` flag. -/
structure PdfDocument where
  pageCount : ℕ
  formsInited : Bool
deriving Repr, DecidableEq

/-- The call `pdf.init_forms()`: the flatten-forms mutation on the parent handle. -/
def init_forms (d : PdfDocument) : PdfDocument :=
  { d with formsInited := true }

/-- A Python value passed as the `pdf` argument of the public entry points:
a path string, an open `PdfDocument`, or a value of any other type. -/
inductive PyVal where
  | path (s : String)
  | doc (d : PdfDocument)
  | other (typeName : String)
deriving Repr, DecidableEq

/-- Observable steps of one run, used to state temporal claims.
`initForms` is the flatten-forms mutation; `extract` is a glyph-extraction +
inference pass run in the caller's context (`get_pdfium_chars` + `inference`);
`worker` is the dispatch of one chunk to an isolated worker process. -/
inductive Event where
  | initForms : Event
  | extract : List ℕ → Bool → Event
  | worker : List ℕ → Event
deriving Repr, DecidableEq

/-! ### Python `str.strip` -/

/-- Python's default whitespace test, approximated by `Char.isWhitespace`. -/
def pyWS (c : Char) : Bool := c.isWhitespace

/-- Remove the leading whitespace run of a character list. -/
def lstripList (l : List Char) : List Char := l.dropWhile pyWS

/-- Remove the trailing whitespace run of a character list. -/
def rstripList (l : List Char) : List Char := (l.reverse.dropWhile pyWS).reverse

/-- Python's `str.strip()` with no argument: remove leading and trailing
whitespace. -/
def pyStrip (s : String) : String := ⟨rstripList (lstripList s.data)⟩

/-! ### The partitioning step of `_get_pages` -/

/-- Embeds `pages_per_worker = math.ceil(len(page_range) / workers)` from
`_get_pages`; for `1 ≤ w` the natural-number form `(n + w - 1) / w` is exactly
the ceiling of `n / w`. -/
def pages_per_worker (n w : ℕ) : ℕ := (n + w - 1) / w

/-- Embeds `page_range_chunks = [page_range[i * pages_per_worker:(i + 1) *
pages_per_worker] for i in range(workers)]` from `_get_pages`. -/
def page_range_chunks (page_range : List ℕ) (workers : ℕ) : List (List ℕ) :=
  (List.range workers).map (fun i =>
    (page_range.drop (i * pages_per_worker page_range.length workers)).take
      (pages_per_worker page_range.length workers))

/-! ### Partition lemmas -/

theorem flatten_slices (l : List ℕ) (c : ℕ) :
    ∀ w : ℕ,
      ((List.range w).map (fun i => (l.drop (i * c)).take c)).flatten = l.take (w * c) := by
  intro w
  induction w with
  | zero => simp
  | succ w ih =>
    rw [List.range_succ, List.map_append, List.flatten_append]
    simp only [List.map_cons, List.map_nil, List.flatten_cons, List.flatten_nil,
      List.append_nil, ih]
    rw [show (w + 1) * c = w * c + c by ring, List.take_add]

theorem length_le_mul_pages_per_worker (n w : ℕ) (hw : 1 ≤ w) :
    n ≤ w * pages_per_worker n w := by
  unfold pages_per_worker
  have h := Nat.div_add_mod (n + w - 1) w
  have h2 := Nat.mod_lt (n + w - 1) (show 0 < w by omega)
  omega

theorem page_range_chunks_flatten (l : List ℕ) (w : ℕ) (hw : 1 ≤ w) :
    (page_range_chunks l w).flatten = l := by
  unfold page_range_chunks
  rw [flatten_slices]
  exact List.take_of_length_le (length_le_mul_pages_per_worker l.length w hw)

theorem page_range_chunks_length (l : List ℕ) (w : ℕ) :
    (page_range_chunks l w).length = w := by
  simp [page_range_chunks]

/-! ### Strip lemmas -/

theorem dropWhile_length_le (p : Char → Bool) (l : List Char) :
    (l.dropWhile p).length ≤ l.length := by
  induction l with
  | nil => simp
  | cons x t ih =>
    by_cases h : p x
    · simp only [List.dropWhile_cons, h, if_true, List.length_cons]
      omega
    · simp [List.dropWhile_cons, h]

theorem dropWhile_dropWhile (p : Char → Bool) (l : List Char) :
    (l.dropWhile p).dropWhile p = l.dropWhile p := by
  induction l with
  | nil => simp
  | cons x t ih =>
    by_cases h : p x
    · simp [List.dropWhile_cons, h, ih]
    · simp [List.dropWhile_cons, h]

theorem dropWhile_append_last (p : Char → Bool) (u : List Char) (x : Char)
    (h : p x = false) : (u ++ [x]).dropWhile p = u.dropWhile p ++ [x] := by
  induction u with
  | nil => simp [List.dropWhile_cons, h]
  | cons y t ih =>
    by_cases hy : p y
    · simp [List.dropWhile_cons, hy, ih]
    · simp [List.dropWhile_cons, hy]

theorem lstrip_head_not_ws (l : List Char) (x : List Char) (hx : lstripList l = x) :
    x.dropWhile pyWS = x := by
  subst hx
  exact dropWhile_dropWhile pyWS l

theorem lstripList_rstripList (l : List Char) (hl : l.dropWhile pyWS = l) :
    lstripList (rstripList l) = rstripList l := by
  cases l with
  | nil => simp [lstripList, rstripList]
  | cons x t =>
    have hx : pyWS x = false := by
      by_contra hc
      have hx' : pyWS x = true := by
        cases h : pyWS x
        · exact absurd h hc
        · rfl
      rw [List.dropWhile_cons, if_pos hx'] at hl
      have := dropWhile_length_le pyWS t
      have h2 := congrArg List.length hl
      simp at h2
      omega
    have hrev : (x :: t).reverse = t.reverse ++ [x] := by simp
    unfold rstripList lstripList
    rw [hrev, dropWhile_append_last pyWS t.reverse x hx]
    rw [List.reverse_append]
    simp only [List.reverse_cons, List.reverse_nil, List.nil_append,
      List.singleton_append]
    rw [List.dropWhile_cons, if_neg (by simp [hx])]

theorem rstripList_rstripList (l : List Char) :
    rstripList (rstripList l) = rstripList l := by
  unfold rstripList
  rw [List.reverse_reverse, dropWhile_dropWhile]

theorem pyStrip_idem (s : String) : pyStrip (pyStrip s) = pyStrip s := by
  unfold pyStrip
  congr 1
  show rstripList (lstripList (rstripList (lstripList s.data)))
      = rstripList (lstripList s.data)
  rw [lstripList_rstripList (lstripList s.data)
      (dropWhile_dropWhile pyWS s.data), rstripList_rstripList]

/-! ### The pipeline of `extraction.py`

Abstract collaborators, passed as parameters to each definition:
* `perPage : PdfDocument → M → Bool → ℕ → Page` — modelled from the spec:
  `get_pdfium_chars` followed by `inference` (neither is under `src/`).  §6 of
  the spec states that `inference` yields one `PageResult` per input page, in
  input order, and that extraction is per page, so the composite is a per-page
  map; the `Bool` is the `flatten_pdf` argument of `get_pdfium_chars`, whose
  default is `false`. §5 states the extractor is read-only on the document, so
  it contributes no mutation event.
* `get_model : M` — `pdftext.model.get_model` (not under `src/`).
* `openPdf : String → PdfDocument` — `pypdfium2.PdfDocument(path)`.
* `postprocess_text : String → String`, `handle_hyphens : String → Bool →
  String`, `merge_text : Page → Bool → Bool → String`, `sort_blocks : List
  Block → List Block` — `pdftext.postprocessing` (not under `src/`; the spec
  leaves their string behaviour implementation-defined).
* `WORKER_PAGE_THRESHOLD : ℕ` — `pdftext.settings` (not under `src/`; the
  spec gives no concrete value, only that it is a positive configured
  minimum pages-per-worker).
-/

/-- Modelled from the spec: the composite of `get_pdfium_chars` and
`inference` (neither under `src/`), which by §6 of the spec maps each page of
`page_range`, in order, to one `PageResult`. -/
def extract_infer {M : Type} (perPage : PdfDocument → M → Bool → ℕ → Page)
    (pdf_doc : PdfDocument) (model : M) (flatten_pdf : Bool)
    (page_range : List ℕ) : List Page :=
  page_range.map (perPage pdf_doc model flatten_pdf)

/-- Embeds `_process_pdf(pdf, flatten_pdf)`: validate the input, open a path, and
apply the one-time `init_forms` mutation when `flatten_pdf` is set.  The
first component is the trace of document-touching events. -/
def _process_pdf (openPdf : String → PdfDocument) (pdf : PyVal)
    (flatten_pdf : Bool) : List Event × Except String PdfDocument :=
  match pdf with
  | .other _ => ([], .error "pdf must be a file path string or a PdfDocument object")
  | .path s =>
      let d := openPdf s
      if flatten_pdf then ([Event.initForms], .ok (init_forms d))
      else ([], .ok d)
  | .doc d =>
      if flatten_pdf then ([Event.initForms], .ok (init_forms d))
      else ([], .ok d)

/-- Embeds `_get_page_range(pdf_doc, model, page_range)`: the worker body, which
calls `get_pdfium_chars(pdf_doc, page_range)` — with `flatten_pdf` left at its
default `false` — and then `inference`. -/
def _get_page_range {M : Type} (perPage : PdfDocument → M → Bool → ℕ → Page)
    (pdf_doc : PdfDocument) (model : M) (page_range : List ℕ) : List Page :=
  extract_infer perPage pdf_doc model false page_range

/-- Embeds `_get_pages(pdf_doc, model, page_range, flatten_pdf, workers)`:
resolve defaults, cap `workers` at `len(page_range) //
WORKER_PAGE_THRESHOLD`, then either run extraction + inference in the
caller's context (one `extract` event) or slice `page_range` into
`page_range_chunks` and hand each chunk to a worker (one `worker` event per
chunk, results concatenated in submission order). -/
def _get_pages {M : Type} (perPage : PdfDocument → M → Bool → ℕ → Page)
    (get_model : M) (pdf_doc : PdfDocument) (model : Option M)
    (page_range : Option (List ℕ)) (flatten_pdf : Bool) (workers : Option ℤ)
    (WORKER_PAGE_THRESHOLD : ℕ) : List Event × List Page :=
  let m := model.getD get_model
  let pr := page_range.getD (List.range pdf_doc.pageCount)
  let cappedWorkers := workers.map
    (fun w => min w ((pr.length / WORKER_PAGE_THRESHOLD : ℕ) : ℤ))
  match cappedWorkers with
  | none => ([Event.extract pr flatten_pdf], extract_infer perPage pdf_doc m flatten_pdf pr)
  | some w =>
      if w ≤ 1 then
        ([Event.extract pr flatten_pdf], extract_infer perPage pdf_doc m flatten_pdf pr)
      else
        let chunks := page_range_chunks pr w.toNat
        (chunks.map Event.worker,
         (chunks.map (_get_page_range perPage pdf_doc m)).flatten)

/-- Embeds `paginated_plain_text_output(pdf_doc, ...)`: one merged, stripped string
per page. -/
def paginated_plain_text_output {M : Type}
    (perPage : PdfDocument → M → Bool → ℕ → Page) (get_model : M)
    (merge_text : Page → Bool → Bool → String)
    (pdf_doc : PdfDocument) (sort : Bool) (model : Option M) (hyphens : Bool)
    (page_range : Option (List ℕ)) (flatten_pdf : Bool) (workers : Option ℤ)
    (WORKER_PAGE_THRESHOLD : ℕ) : List Event × List String :=
  let g := _get_pages perPage get_model pdf_doc model page_range flatten_pdf
    workers WORKER_PAGE_THRESHOLD
  (g.1, g.2.map (fun page => pyStrip (merge_text page sort hyphens)))

/-- Embeds `plain_text_output(pdf, ...)`: validate/open the document, then join the
paginated output with a single newline. -/
def plain_text_output {M : Type}
    (perPage : PdfDocument → M → Bool → ℕ → Page) (get_model : M)
    (openPdf : String → PdfDocument) (merge_text : Page → Bool → Bool → String)
    (pdf : PyVal) (sort : Bool) (model : Option M) (hyphens : Bool)
    (page_range : Option (List ℕ)) (flatten_pdf : Bool) (workers : Option ℤ)
    (WORKER_PAGE_THRESHOLD : ℕ) : List Event × Except String String :=
  let r := _process_pdf openPdf pdf flatten_pdf
  match r.2 with
  | .error e => (r.1, .error e)
  | .ok pdf_doc =>
      let t := paginated_plain_text_output perPage get_model merge_text pdf_doc
        sort model hyphens page_range flatten_pdf workers WORKER_PAGE_THRESHOLD
      (r.1 ++ t.1, .ok (String.intercalate "\n" t.2))

/-- Embeds `_process_span(span, page_width, page_height, keep_chars)`: denormalize
the span bbox, clean the text (`handle_hyphens(postprocess_text(...),
keep_hyphens=True)`), and either delete the `chars` key or denormalize every
char bbox. -/
def _process_span (postprocess_text : String → String)
    (handle_hyphens : String → Bool → String) (page_width page_height : ℚ)
    (keep_chars : Bool) (span : Span) : Span :=
  { bbox := unnormalize_bbox span.bbox page_width page_height
    text := handle_hyphens (postprocess_text span.text) true
    chars :=
      if keep_chars then
        span.chars.map (fun cs => cs.map
          (fun c => { c with bbox := unnormalize_bbox c.bbox page_width page_height }))
      else none }

/-- The line loop of `dictionary_output`: delete every key outside
`["spans", "bbox"]`, denormalize the line bbox, process each span. -/
def process_line (postprocess_text : String → String)
    (handle_hyphens : String → Bool → String) (page_width page_height : ℚ)
    (keep_chars : Bool) (line : Line) : Line :=
  { bbox := unnormalize_bbox line.bbox page_width page_height
    spans := line.spans.map
      (_process_span postprocess_text handle_hyphens page_width page_height keep_chars)
    extra := line.extra.filter (fun kv => kv.1 == "spans" || kv.1 == "bbox") }

/-- The block loop of `dictionary_output`: delete every key outside
`["lines", "bbox"]`, denormalize the block bbox, process each line. -/
def process_block (postprocess_text : String → String)
    (handle_hyphens : String → Bool → String) (page_width page_height : ℚ)
    (keep_chars : Bool) (block : Block) : Block :=
  { bbox := unnormalize_bbox block.bbox page_width page_height
    lines := block.lines.map
      (process_line postprocess_text handle_hyphens page_width page_height keep_chars)
    extra := block.extra.filter (fun kv => kv.1 == "lines" || kv.1 == "bbox") }

/-- The per-page body of `dictionary_output`'s loop: process every block with
the page's own width/height, then optionally sort the blocks. -/
def process_page (postprocess_text : String → String)
    (handle_hyphens : String → Bool → String)
    (sort_blocks : List Block → List Block) (keep_chars sort : Bool)
    (page : Page) : Page :=
  let blocks := page.blocks.map
    (process_block postprocess_text handle_hyphens page.width page.height keep_chars)
  { page with blocks := if sort then sort_blocks blocks else blocks }

/-- Embeds `dictionary_output(pdf, ...)`: validate/open the document, pull the pages,
and run the assembly loop over each page. -/
def dictionary_output {M : Type}
    (perPage : PdfDocument → M → Bool → ℕ → Page) (get_model : M)
    (openPdf : String → PdfDocument) (postprocess_text : String → String)
    (handle_hyphens : String → Bool → String)
    (sort_blocks : List Block → List Block)
    (pdf : PyVal) (sort : Bool) (model : Option M)
    (page_range : Option (List ℕ)) (flatten_pdf : Bool) (keep_chars : Bool)
    (workers : Option ℤ) (WORKER_PAGE_THRESHOLD : ℕ) :
    List Event × Except String (List Page) :=
  let r := _process_pdf openPdf pdf flatten_pdf
  match r.2 with
  | .error e => (r.1, .error e)
  | .ok pdf_doc =>
      let g := _get_pages perPage get_model pdf_doc model page_range flatten_pdf
        workers WORKER_PAGE_THRESHOLD
      (r.1 ++ g.1,
       .ok (g.2.map (process_page postprocess_text handle_hyphens sort_blocks
         keep_chars sort)))

/-- CPython heap model of `dictionary_output`'s assembly phase: the pages
returned by inference live in a `store` of dict objects; the loop mutates each
cell in place and the function returns the same list object, i.e. references
(here: indices) to the very same cells, in the same order. -/
def dictionary_output_assemble_mut (postprocess_text : String → String)
    (handle_hyphens : String → Bool → String)
    (sort_blocks : List Block → List Block) (keep_chars sort : Bool)
    (store : List Page) : List Page × List ℕ :=
  (store.map (process_page postprocess_text handle_hyphens sort_blocks keep_chars sort),
   List.range store.length)

/-! ### Vocabulary for stating the assembly claims -/

/-- Dict well-formedness for an inference-produced tree: the transient keys of
a block never collide with its structural keys `"lines"`/`"bbox"`, and the
transient keys of a line never collide with `"spans"`/`"bbox"` (Python dicts
cannot hold the same key twice). -/
def PageWF (p : Page) : Prop :=
  ∀ b ∈ p.blocks,
    (∀ kv ∈ b.extra, kv.1 ≠ "lines" ∧ kv.1 ≠ "bbox") ∧
    ∀ ln ∈ b.lines, ∀ kv ∈ ln.extra, kv.1 ≠ "spans" ∧ kv.1 ≠ "bbox"

/-- How an assembled span relates to the inference-produced span it came from:
bbox denormalized exactly once with the page's width/height, text cleaned, and
`chars` dropped unless requested — when kept, every char keeps its metadata
and has its bbox denormalized exactly once. -/
def SpanOut (postprocess_text : String → String)
    (handle_hyphens : String → Bool → String) (w h : ℚ) (keep_chars : Bool)
    (s s' : Span) : Prop :=
  s'.bbox = unnormalize_bbox s.bbox w h ∧
  s'.text = handle_hyphens (postprocess_text s.text) true ∧
  (if keep_chars then
    s'.chars = s.chars.map (fun cs =>
      cs.map (fun c => { c with bbox := unnormalize_bbox c.bbox w h }))
  else s'.chars = none)

/-- How an assembled line relates to its origin: no transient field survives,
bbox denormalized exactly once, spans assembled pointwise. -/
def LineOut (postprocess_text : String → String)
    (handle_hyphens : String → Bool → String) (w h : ℚ) (keep_chars : Bool)
    (ln ln' : Line) : Prop :=
  ln'.extra = [] ∧
  ln'.bbox = unnormalize_bbox ln.bbox w h ∧
  List.Forall₂ (SpanOut postprocess_text handle_hyphens w h keep_chars)
    ln.spans ln'.spans

/-- How an assembled block relates to its origin: no transient field survives,
bbox denormalized exactly once, lines assembled pointwise. -/
def BlockOut (postprocess_text : String → String)
    (handle_hyphens : String → Bool → String) (w h : ℚ) (keep_chars : Bool)
    (b b' : Block) : Prop :=
  b'.extra = [] ∧
  b'.bbox = unnormalize_bbox b.bbox w h ∧
  List.Forall₂ (LineOut postprocess_text handle_hyphens w h keep_chars)
    b.lines b'.lines

/-- How an assembled page relates to its origin: width and height unchanged,
blocks assembled pointwise with that page's own width/height. -/
def PageOut (postprocess_text : String → String)
    (handle_hyphens : String → Bool → String) (keep_chars : Bool)
    (p p' : Page) : Prop :=
  p'.width = p.width ∧ p'.height = p.height ∧
  List.Forall₂ (BlockOut postprocess_text handle_hyphens p.width p.height keep_chars)
    p.blocks p'.blocks

/-- All glyph-metadata pairs surviving anywhere below a page of the output
tree (used to observe whether transient char fields survive assembly). -/
def tree_char_metas (p : Page) : List (String × String) :=
  (p.blocks.map (fun b =>
    (b.lines.map (fun ln =>
      (ln.spans.map (fun s =>
        ((s.chars.getD []).map PdfChar.meta).flatten)).flatten)).flatten)).flatten

/-! ### Concrete collaborator instances, used by witnesses -/

/-- A trivial page, used to instantiate the abstract collaborators. -/
def noPage : Page := { width := 0, height := 0, blocks := [] }

/-- A concrete per-page extractor+inference instance. -/
def perPage0 : PdfDocument → Unit → Bool → ℕ → Page := fun _ _ _ _ => noPage

/-- A concrete document opener instance. -/
def openPdf0 : String → PdfDocument := fun _ => { pageCount := 1, formsInited := false }

/-- A concrete `postprocess_text` instance. -/
def pt0 : String → String := fun s => s

/-- A concrete `handle_hyphens` instance. -/
def hh0 : String → Bool → String := fun s _ => s

/-- A concrete `merge_text` instance, returning text with surrounding
whitespace. -/
def mt0 : Page → Bool → Bool → String := fun _ _ _ => " a "

/-- A concrete `sort_blocks` instance. -/
def sb0 : List Block → List Block := fun bs => bs

/-! ### Helper lemmas about `_get_pages` -/

theorem get_pages_some_eq {M : Type} (perPage : PdfDocument → M → Bool → ℕ → Page)
    (get_model : M) (pdf_doc : PdfDocument) (model : Option M)
    (page_range : Option (List ℕ)) (flatten_pdf : Bool) (w : ℤ) (WPT : ℕ) :
    _get_pages perPage get_model pdf_doc model page_range flatten_pdf (some w) WPT
      = (if min w (((page_range.getD (List.range pdf_doc.pageCount)).length / WPT : ℕ) : ℤ) ≤ 1 then
          ([Event.extract (page_range.getD (List.range pdf_doc.pageCount)) flatten_pdf],
           extract_infer perPage pdf_doc (model.getD get_model) flatten_pdf
             (page_range.getD (List.range pdf_doc.pageCount)))
        else
          ((page_range_chunks (page_range.getD (List.range pdf_doc.pageCount))
              (min w (((page_range.getD (List.range pdf_doc.pageCount)).length / WPT : ℕ) : ℤ)).toNat).map
            Event.worker,
           ((page_range_chunks (page_range.getD (List.range pdf_doc.pageCount))
              (min w (((page_range.getD (List.range pdf_doc.pageCount)).length / WPT : ℕ) : ℤ)).toNat).map
            (_get_page_range perPage pdf_doc (model.getD get_model))).flatten)) := rfl

theorem get_pages_seq {M : Type} (perPage : PdfDocument → M → Bool → ℕ → Page)
    (get_model : M) (pdf_doc : PdfDocument) (model : Option M)
    (page_range : Option (List ℕ)) (flatten_pdf : Bool) (workers : Option ℤ)
    (WPT : ℕ)
    (h : match workers with
         | none => True
         | some w => min w (((page_range.getD (List.range pdf_doc.pageCount)).length / WPT : ℕ) : ℤ) ≤ 1) :
    _get_pages perPage get_model pdf_doc model page_range flatten_pdf workers WPT
      = ([Event.extract (page_range.getD (List.range pdf_doc.pageCount)) flatten_pdf],
         (page_range.getD (List.range pdf_doc.pageCount)).map
           (perPage pdf_doc (model.getD get_model) flatten_pdf)) := by
  cases workers with
  | none => rfl
  | some w =>
      simp only at h
      rw [get_pages_some_eq, if_pos h]
      rfl

theorem get_page_range_eq_map {M : Type}
    (perPage : PdfDocument → M → Bool → ℕ → Page) (pdf_doc : PdfDocument)
    (m : M) :
    _get_page_range perPage pdf_doc m
      = fun chunk => chunk.map (perPage pdf_doc m false) := rfl

theorem get_pages_snd_flatten_false {M : Type}
    (perPage : PdfDocument → M → Bool → ℕ → Page) (get_model : M)
    (pdf_doc : PdfDocument) (model : Option M) (page_range : Option (List ℕ))
    (workers : Option ℤ) (WPT : ℕ) :
    (_get_pages perPage get_model pdf_doc model page_range false workers WPT).2
      = (page_range.getD (List.range pdf_doc.pageCount)).map
          (perPage pdf_doc (model.getD get_model) false) := by
  cases workers with
  | none => rfl
  | some w =>
      by_cases h : min w (((page_range.getD (List.range pdf_doc.pageCount)).length / WPT : ℕ) : ℤ) ≤ 1
      · rw [get_pages_seq perPage get_model pdf_doc model page_range false (some w) WPT (by simpa using h)]
      · have hw : 1 ≤ (min w (((page_range.getD (List.range pdf_doc.pageCount)).length / WPT : ℕ) : ℤ)).toNat := by
          omega
        rw [get_pages_some_eq, if_neg h]
        show ((page_range_chunks _ _).map (_get_page_range perPage pdf_doc _)).flatten = _
        rw [get_page_range_eq_map, ← List.map_flatten, page_range_chunks_flatten _ _ hw]

/-! ### Claims -/

/-- C1: for every page_range and every (capped, positive) worker count, the
chunks produced by the partitioning step of `_get_pages` — contiguous slices
of `page_range` of size `ceil(len(page_range)/workers)` — concatenated in the
order they are produced, equal the original `page_range` exactly: no page
index missing, none duplicated, relative order unchanged. -/
theorem C1_partition_exact (page_range : List ℕ) (workers : ℕ)
    (hw : 1 ≤ workers) :
    (page_range_chunks page_range workers).flatten = page_range :=
  page_range_chunks_flatten page_range workers hw

/-- Witness for C1 at a concrete page range and worker count. -/
theorem C1_partition_exact_witness :
    1 ≤ 3 ∧ (page_range_chunks [4, 5, 6, 7, 8] 3).flatten = [4, 5, 6, 7, 8] :=
  ⟨by decide, C1_partition_exact [4, 5, 6, 7, 8] 3 (by decide)⟩

/-- C2: for every document, model and page_range, `_get_pages` with any
requested worker count (in particular `workers = 1`, the sequential path, and
`workers = N > 1`, the parallel path) returns page results for the same pages
in the same order: the parallel path's flattened result — chunks concatenated
in submission order — equals the caller-supplied `page_range` order.
Determinism of inference is expressed by `perPage` being a function. -/
theorem C2_parallel_equals_sequential {M : Type}
    (perPage : PdfDocument → M → Bool → ℕ → Page) (get_model : M)
    (pdf_doc : PdfDocument) (model : Option M) (page_range : Option (List ℕ))
    (w : ℤ) (WPT : ℕ) :
    (_get_pages perPage get_model pdf_doc model page_range false (some w) WPT).2
      = (_get_pages perPage get_model pdf_doc model page_range false (some 1) WPT).2
    ∧ (_get_pages perPage get_model pdf_doc model page_range false (some w) WPT).2
      = (page_range.getD (List.range pdf_doc.pageCount)).map
          (perPage pdf_doc (model.getD get_model) false) := by
  constructor
  · rw [get_pages_snd_flatten_false, get_pages_snd_flatten_false]
  · rw [get_pages_snd_flatten_false]

/-- C3: if the requested worker count is unset or at most 1, or the page range
is shorter than `2 * WORKER_PAGE_THRESHOLD` (so the cap
`min(workers, len(page_range) // WORKER_PAGE_THRESHOLD)` brings the effective
worker count to at most 1), `_get_pages` takes the single-chunk sequential
path: the whole page range is extracted and inferred in the caller's context
(a single `extract` event, no worker dispatch), regardless of any
`requested_workers > 1`. -/
theorem C3_sequential_path {M : Type}
    (perPage : PdfDocument → M → Bool → ℕ → Page) (get_model : M)
    (pdf_doc : PdfDocument) (model : Option M) (page_range : Option (List ℕ))
    (flatten_pdf : Bool) (workers : Option ℤ) (WPT : ℕ)
    (h : workers = none ∨ (∃ w, workers = some w ∧ w ≤ 1) ∨
         (page_range.getD (List.range pdf_doc.pageCount)).length < 2 * WPT) :
    _get_pages perPage get_model pdf_doc model page_range flatten_pdf workers WPT
      = ([Event.extract (page_range.getD (List.range pdf_doc.pageCount)) flatten_pdf],
         (page_range.getD (List.range pdf_doc.pageCount)).map
           (perPage pdf_doc (model.getD get_model) flatten_pdf)) := by
  apply get_pages_seq
  cases workers with
  | none => trivial
  | some w =>
      simp only
      rcases h with h | ⟨w', hw', hle⟩ | h
      · exact absurd h (by simp)
      · have : w = w' := by injection hw'
        subst this
        exact le_trans (min_le_left _ _) hle
      · have hT : 0 < WPT := by omega
        have : (page_range.getD (List.range pdf_doc.pageCount)).length / WPT < 2 :=
          (Nat.div_lt_iff_lt_mul hT).mpr h
        have : ((((page_range.getD (List.range pdf_doc.pageCount)).length / WPT : ℕ)) : ℤ) ≤ 1 := by
          omega
        exact le_trans (min_le_right _ _) this

/-- Witness for C3: five requested workers on a three-page range with
threshold 2 still take the sequential path. -/
theorem C3_sequential_path_witness :
    ((some (5 : ℤ) = none ∨ (∃ w, some (5 : ℤ) = some w ∧ w ≤ 1) ∨
        ((some [0, 1, 2] : Option (List ℕ)).getD
          (List.range (PdfDocument.mk 3 false).pageCount)).length < 2 * 2)) ∧
    _get_pages perPage0 () (PdfDocument.mk 3 false) none (some [0, 1, 2]) false
        (some 5) 2
      = ([Event.extract [0, 1, 2] false], [noPage, noPage, noPage]) := by
  refine ⟨Or.inr (Or.inr (by decide)), ?_⟩
  exact C3_sequential_path perPage0 () (PdfDocument.mk 3 false) none
    (some [0, 1, 2]) false (some 5) 2 (Or.inr (Or.inr (by decide)))

set_option maxRecDepth 8000

/-- C4 fails as stated: with threshold 10, a 121-page range and 12 requested
workers, the cap leaves 12 effective workers (parallel path), the chunk size
is `ceil(121/12) = 11`, and the twelfth chunk `page_range[121:132]` is empty;
`_get_pages` dispatches a worker on that empty chunk. -/
theorem C4_counterexample :
    (min (12 : ℤ) (((List.range 121).length / 10 : ℕ) : ℤ) = 12 ∧
      ¬ ((12 : ℤ) ≤ 1)) ∧
    (page_range_chunks (List.range 121) 12).getD 11 [0] = [] ∧
    Event.worker [] ∈
      (_get_pages perPage0 () (PdfDocument.mk 121 false) none
        (some (List.range 121)) false (some 12) 10).1 := by
  refine ⟨⟨by decide, by decide⟩, by decide, by decide⟩

/-- C4 amended: on the parallel path every chunk
`page_range[i*ceil(n/w):(i+1)*ceil(n/w)]` with `i * ceil(n/w) < n` is
non-empty, and a chunk is empty exactly when its start offset
`i * ceil(n/w)` already reaches the end of the page range — trailing empty
chunks can occur even when the parallel path is taken. -/
theorem C4_chunk_nonempty_iff (l : List ℕ) (w i : ℕ) (hw : 1 ≤ w)
    (hi : i < w) :
    (page_range_chunks l w).getD i [] ≠ [] ↔
      i * pages_per_worker l.length w < l.length := by
  have hget : (page_range_chunks l w).getD i []
      = (l.drop (i * pages_per_worker l.length w)).take (pages_per_worker l.length w) := by
    simp [page_range_chunks, List.getD, List.getElem?_map, List.getElem?_range hi]
  rw [hget]
  constructor
  · intro hne
    by_contra hge
    apply hne
    have : l.length ≤ i * pages_per_worker l.length w := by omega
    rw [List.drop_eq_nil_iff.mpr this]
    simp
  · intro hlt
    intro hnil
    rcases List.take_eq_nil_iff.mp hnil with hc | hdrop
    · have hn : 0 < l.length := by
        by_contra hn0
        have : l.length = 0 := by omega
        rw [this] at hlt
        omega
      have : l.length + w - 1 < w := (Nat.div_eq_zero_iff (by omega)).mp hc
      omega
    · have := List.drop_eq_nil_iff.mp hdrop
      omega

/-- Witness for C4's amended claim at a concrete range, worker count and
chunk index. -/
theorem C4_chunk_nonempty_iff_witness :
    (1 ≤ 2 ∧ 0 < 2) ∧
    ((page_range_chunks [0, 1, 2] 2).getD 0 [] ≠ [] ↔
      0 * pages_per_worker 3 2 < 3) :=
  ⟨by decide, C4_chunk_nonempty_iff [0, 1, 2] 2 0 (by decide) (by decide)⟩

/-! ### Assembly lemmas -/

theorem span_out_process (postprocess_text : String → String)
    (handle_hyphens : String → Bool → String) (w h : ℚ) (keep_chars : Bool)
    (s : Span) :
    SpanOut postprocess_text handle_hyphens w h keep_chars s
      (_process_span postprocess_text handle_hyphens w h keep_chars s) := by
  refine ⟨rfl, rfl, ?_⟩
  cases keep_chars <;> simp [_process_span]

theorem line_out_process (postprocess_text : String → String)
    (handle_hyphens : String → Bool → String) (w h : ℚ) (keep_chars : Bool)
    (ln : Line) (hwf : ∀ kv ∈ ln.extra, kv.1 ≠ "spans" ∧ kv.1 ≠ "bbox") :
    LineOut postprocess_text handle_hyphens w h keep_chars ln
      (process_line postprocess_text handle_hyphens w h keep_chars ln) := by
  refine ⟨?_, rfl, ?_⟩
  · apply List.filter_eq_nil_iff.mpr
    intro kv hkv
    have := hwf kv hkv
    simp [this.1, this.2]
  · show List.Forall₂ _ ln.spans (ln.spans.map _)
    rw [List.forall₂_map_right_iff]
    rw [List.forall₂_same]
    intro s _
    exact span_out_process postprocess_text handle_hyphens w h keep_chars s

theorem block_out_process (postprocess_text : String → String)
    (handle_hyphens : String → Bool → String) (w h : ℚ) (keep_chars : Bool)
    (b : Block)
    (hwf : (∀ kv ∈ b.extra, kv.1 ≠ "lines" ∧ kv.1 ≠ "bbox") ∧
           ∀ ln ∈ b.lines, ∀ kv ∈ ln.extra, kv.1 ≠ "spans" ∧ kv.1 ≠ "bbox") :
    BlockOut postprocess_text handle_hyphens w h keep_chars b
      (process_block postprocess_text handle_hyphens w h keep_chars b) := by
  refine ⟨?_, rfl, ?_⟩
  · apply List.filter_eq_nil_iff.mpr
    intro kv hkv
    have := hwf.1 kv hkv
    simp [this.1, this.2]
  · show List.Forall₂ _ b.lines (b.lines.map _)
    rw [List.forall₂_map_right_iff, List.forall₂_same]
    intro ln hln
    exact line_out_process postprocess_text handle_hyphens w h keep_chars ln
      (hwf.2 ln hln)

theorem page_out_process (postprocess_text : String → String)
    (handle_hyphens : String → Bool → String)
    (sort_blocks : List Block → List Block) (keep_chars : Bool) (p : Page)
    (hwf : PageWF p) :
    PageOut postprocess_text handle_hyphens keep_chars p
      (process_page postprocess_text handle_hyphens sort_blocks keep_chars false p) := by
  refine ⟨rfl, rfl, ?_⟩
  show List.Forall₂ _ p.blocks (p.blocks.map _)
  rw [List.forall₂_map_right_iff, List.forall₂_same]
  intro b hb
  exact block_out_process postprocess_text handle_hyphens p.width p.height
    keep_chars b (hwf b hb)

/-! ### Facade unfolding lemmas -/

theorem plain_text_output_of_ok {M : Type}
    (perPage : PdfDocument → M → Bool → ℕ → Page) (get_model : M)
    (openPdf : String → PdfDocument) (merge_text : Page → Bool → Bool → String)
    (pdf : PyVal) (sort : Bool) (model : Option M) (hyphens : Bool)
    (page_range : Option (List ℕ)) (flatten_pdf : Bool) (workers : Option ℤ)
    (WPT : ℕ) (d' : PdfDocument)
    (hd : (_process_pdf openPdf pdf flatten_pdf).2 = .ok d') :
    plain_text_output perPage get_model openPdf merge_text pdf sort model
        hyphens page_range flatten_pdf workers WPT
      = ((_process_pdf openPdf pdf flatten_pdf).1 ++
          (paginated_plain_text_output perPage get_model merge_text d' sort
            model hyphens page_range flatten_pdf workers WPT).1,
         .ok (String.intercalate "\n"
          (paginated_plain_text_output perPage get_model merge_text d' sort
            model hyphens page_range flatten_pdf workers WPT).2)) := by
  simp only [plain_text_output]
  rw [hd]

theorem dictionary_output_of_ok {M : Type}
    (perPage : PdfDocument → M → Bool → ℕ → Page) (get_model : M)
    (openPdf : String → PdfDocument) (postprocess_text : String → String)
    (handle_hyphens : String → Bool → String)
    (sort_blocks : List Block → List Block)
    (pdf : PyVal) (sort : Bool) (model : Option M)
    (page_range : Option (List ℕ)) (flatten_pdf : Bool) (keep_chars : Bool)
    (workers : Option ℤ) (WPT : ℕ) (d' : PdfDocument)
    (hd : (_process_pdf openPdf pdf flatten_pdf).2 = .ok d') :
    dictionary_output perPage get_model openPdf postprocess_text handle_hyphens
        sort_blocks pdf sort model page_range flatten_pdf keep_chars workers WPT
      = ((_process_pdf openPdf pdf flatten_pdf).1 ++
          (_get_pages perPage get_model d' model page_range flatten_pdf workers WPT).1,
         .ok ((_get_pages perPage get_model d' model page_range flatten_pdf
            workers WPT).2.map
          (process_page postprocess_text handle_hyphens sort_blocks keep_chars sort))) := by
  simp only [dictionary_output]
  rw [hd]

/-! ### Fixtures for the assembly claims -/

/-- A char carrying a glyph-metadata field, as inference produces them. -/
def charF : PdfChar := { bbox := ⟨1, 1, 1, 1⟩, meta := [("font", "F")] }

/-- A span over `charF`. -/
def spanF : Span := { bbox := ⟨1, 1, 1, 1⟩, text := "ab", chars := some [charF] }

/-- A line with a transient field. -/
def lineF : Line := { bbox := ⟨1, 1, 1, 1⟩, spans := [spanF], extra := [("rotation", "0")] }

/-- A block with a transient classification field. -/
def blockF : Block := { bbox := ⟨1, 1, 1, 1⟩, lines := [lineF], extra := [("block_type", "text")] }

/-- A page holding `blockF`. -/
def pageF : Page := { width := 2, height := 2, blocks := [blockF] }

/-- A per-page extractor+inference instance returning `pageF`. -/
def perPageF : PdfDocument → Unit → Bool → ℕ → Page := fun _ _ _ _ => pageF

/-- A single-page document handle. -/
def doc1 : PdfDocument := { pageCount := 1, formsInited := false }

/-- C5 fails as stated: with `keep_chars = True`, char nodes of the returned
tree keep their glyph-metadata fields — `dictionary_output` prunes block and
line dicts but never prunes char dicts, so the `("font", "F")` field of
`charF` survives assembly. -/
theorem C5_counterexample :
    Except.map (fun pages => (pages.map tree_char_metas).flatten)
      (dictionary_output perPageF () openPdf0 pt0 hh0 sb0
        (PyVal.doc doc1) false none none false true none 10).2
      = Except.ok [("font", "F")] := by
  rfl

/-- C5 amended: every block of the assembled tree keeps only bbox and lines,
every line keeps only bbox and spans, and every span keeps only bbox, text
and (when requested) chars; char nodes, when kept, retain their
glyph-metadata fields and only their bbox is rewritten.  Every bbox of the
assembled tree is the single denormalization of the corresponding input bbox
by the page's own width/height (pixel space, never scaled twice), and
`dictionary_output` is exactly this assembly mapped over the extracted
pages. -/
theorem C5_assembled_tree_shape {M : Type}
    (postprocess_text : String → String)
    (handle_hyphens : String → Bool → String)
    (sort_blocks : List Block → List Block) (keep_chars : Bool) (p : Page)
    (perPage : PdfDocument → M → Bool → ℕ → Page) (get_model : M)
    (openPdf : String → PdfDocument) (pdf : PyVal) (model : Option M)
    (page_range : Option (List ℕ)) (flatten_pdf : Bool) (workers : Option ℤ)
    (WPT : ℕ) (d' : PdfDocument)
    (hwf : PageWF p)
    (hd : (_process_pdf openPdf pdf flatten_pdf).2 = .ok d') :
    PageOut postprocess_text handle_hyphens keep_chars p
      (process_page postprocess_text handle_hyphens sort_blocks keep_chars false p) ∧
    (dictionary_output perPage get_model openPdf postprocess_text
        handle_hyphens sort_blocks pdf false model page_range flatten_pdf
        keep_chars workers WPT).2
      = .ok ((_get_pages perPage get_model d' model page_range flatten_pdf
          workers WPT).2.map
        (process_page postprocess_text handle_hyphens sort_blocks keep_chars false)) := by
  constructor
  · exact page_out_process postprocess_text handle_hyphens sort_blocks keep_chars p hwf
  · rw [dictionary_output_of_ok perPage get_model openPdf postprocess_text
      handle_hyphens sort_blocks pdf false model page_range flatten_pdf
      keep_chars workers WPT d' hd]

/-- Witness for C5's amended claim at a concrete well-formed page. -/
theorem C5_assembled_tree_shape_witness :
    (PageWF pageF ∧ (_process_pdf openPdf0 (PyVal.doc doc1) false).2 = .ok doc1) ∧
    (PageOut pt0 hh0 true pageF (process_page pt0 hh0 sb0 true false pageF) ∧
     (dictionary_output perPageF () openPdf0 pt0 hh0 sb0 (PyVal.doc doc1)
        false none none false true none 10).2
       = .ok ((_get_pages perPageF () doc1 none none false none 10).2.map
           (process_page pt0 hh0 sb0 true false))) :=
  ⟨⟨by unfold PageWF; decide, rfl⟩,
   C5_assembled_tree_shape pt0 hh0 sb0 true pageF perPageF () openPdf0
     (PyVal.doc doc1) none none false none 10 doc1 (by unfold PageWF; decide) rfl⟩

/-- C6: `_process_span` with `keep_chars = False` removes the `chars` field
entirely; with `keep_chars = True` it retains the char list and denormalizes
every char's bbox exactly once using the enclosing page's width and height. -/
theorem C6_process_span_chars (postprocess_text : String → String)
    (handle_hyphens : String → Bool → String) (w h : ℚ) (s : Span)
    (cs : List PdfChar) (hc : s.chars = some cs) :
    (_process_span postprocess_text handle_hyphens w h false s).chars = none ∧
    (_process_span postprocess_text handle_hyphens w h true s).chars
      = some (cs.map (fun c => { c with bbox := unnormalize_bbox c.bbox w h })) := by
  refine ⟨rfl, ?_⟩
  simp [_process_span, hc]

/-- Witness for C6 at a concrete span. -/
theorem C6_process_span_chars_witness :
    spanF.chars = some [charF] ∧
    ((_process_span pt0 hh0 2 2 false spanF).chars = none ∧
     (_process_span pt0 hh0 2 2 true spanF).chars
       = some ([charF].map (fun c => { c with bbox := unnormalize_bbox c.bbox 2 2 }))) :=
  ⟨rfl, C6_process_span_chars pt0 hh0 2 2 spanF [charF] rfl⟩

/-- C7: any `pdf` argument that is neither a path string nor a `PdfDocument`
is rejected by both entry points with a `TypeError` naming the accepted
types, before any extraction work (the event trace is empty, so no glyph
extraction, inference or worker dispatch happened, for every possible
collaborator behaviour); path and document inputs pass this validation and
produce a result. -/
theorem C7_invalid_input_rejected {M : Type}
    (perPage : PdfDocument → M → Bool → ℕ → Page) (get_model : M)
    (openPdf : String → PdfDocument) (merge_text : Page → Bool → Bool → String)
    (postprocess_text : String → String)
    (handle_hyphens : String → Bool → String)
    (sort_blocks : List Block → List Block)
    (t : String) (sort hyphens flatten_pdf keep_chars : Bool)
    (model : Option M) (page_range : Option (List ℕ)) (workers : Option ℤ)
    (WPT : ℕ) :
    plain_text_output perPage get_model openPdf merge_text (PyVal.other t)
        sort model hyphens page_range flatten_pdf workers WPT
      = ([], .error "pdf must be a file path string or a PdfDocument object") ∧
    dictionary_output perPage get_model openPdf postprocess_text
        handle_hyphens sort_blocks (PyVal.other t) sort model page_range
        flatten_pdf keep_chars workers WPT
      = ([], .error "pdf must be a file path string or a PdfDocument object") ∧
    (∀ s, ∃ out, (plain_text_output perPage get_model openPdf merge_text
        (PyVal.path s) sort model hyphens page_range flatten_pdf workers WPT).2
      = .ok out) ∧
    (∀ d, ∃ out, (plain_text_output perPage get_model openPdf merge_text
        (PyVal.doc d) sort model hyphens page_range flatten_pdf workers WPT).2
      = .ok out) ∧
    (∀ s, ∃ out, (dictionary_output perPage get_model openPdf postprocess_text
        handle_hyphens sort_blocks (PyVal.path s) sort model page_range
        flatten_pdf keep_chars workers WPT).2 = .ok out) ∧
    (∀ d, ∃ out, (dictionary_output perPage get_model openPdf postprocess_text
        handle_hyphens sort_blocks (PyVal.doc d) sort model page_range
        flatten_pdf keep_chars workers WPT).2 = .ok out) := by
  refine ⟨rfl, rfl, ?_, ?_, ?_, ?_⟩
  · intro s
    cases flatten_pdf with
    | false =>
        exact ⟨_, by rw [plain_text_output_of_ok perPage get_model openPdf
          merge_text (PyVal.path s) sort model hyphens page_range false
          workers WPT (openPdf s) rfl]⟩
    | true =>
        exact ⟨_, by rw [plain_text_output_of_ok perPage get_model openPdf
          merge_text (PyVal.path s) sort model hyphens page_range true
          workers WPT (init_forms (openPdf s)) rfl]⟩
  · intro d
    cases flatten_pdf with
    | false =>
        exact ⟨_, by rw [plain_text_output_of_ok perPage get_model openPdf
          merge_text (PyVal.doc d) sort model hyphens page_range false
          workers WPT d rfl]⟩
    | true =>
        exact ⟨_, by rw [plain_text_output_of_ok perPage get_model openPdf
          merge_text (PyVal.doc d) sort model hyphens page_range true
          workers WPT (init_forms d) rfl]⟩
  · intro s
    cases flatten_pdf with
    | false =>
        exact ⟨_, by rw [dictionary_output_of_ok perPage get_model openPdf
          postprocess_text handle_hyphens sort_blocks (PyVal.path s) sort
          model page_range false keep_chars workers WPT (openPdf s) rfl]⟩
    | true =>
        exact ⟨_, by rw [dictionary_output_of_ok perPage get_model openPdf
          postprocess_text handle_hyphens sort_blocks (PyVal.path s) sort
          model page_range true keep_chars workers WPT (init_forms (openPdf s)) rfl]⟩
  · intro d
    cases flatten_pdf with
    | false =>
        exact ⟨_, by rw [dictionary_output_of_ok perPage get_model openPdf
          postprocess_text handle_hyphens sort_blocks (PyVal.doc d) sort
          model page_range false keep_chars workers WPT d rfl]⟩
    | true =>
        exact ⟨_, by rw [dictionary_output_of_ok perPage get_model openPdf
          postprocess_text handle_hyphens sort_blocks (PyVal.doc d) sort
          model page_range true keep_chars workers WPT (init_forms d) rfl]⟩

/-- C8: `plain_text_output` returns exactly the per-page strings of
`paginated_plain_text_output` joined with a single newline between
consecutive pages, and every per-page string is stripped: it has no leading
or trailing whitespace (stripping it again changes nothing). -/
theorem C8_plain_text_joins_paginated {M : Type}
    (perPage : PdfDocument → M → Bool → ℕ → Page) (get_model : M)
    (openPdf : String → PdfDocument) (merge_text : Page → Bool → Bool → String)
    (pdf : PyVal) (sort : Bool) (model : Option M) (hyphens : Bool)
    (page_range : Option (List ℕ)) (flatten_pdf : Bool) (workers : Option ℤ)
    (WPT : ℕ) (d' : PdfDocument)
    (hd : (_process_pdf openPdf pdf flatten_pdf).2 = .ok d') :
    (plain_text_output perPage get_model openPdf merge_text pdf sort model
        hyphens page_range flatten_pdf workers WPT).2
      = .ok (String.intercalate "\n"
          (paginated_plain_text_output perPage get_model merge_text d' sort
            model hyphens page_range flatten_pdf workers WPT).2) ∧
    ∀ s ∈ (paginated_plain_text_output perPage get_model merge_text d' sort
        model hyphens page_range flatten_pdf workers WPT).2,
      pyStrip s = s := by
  constructor
  · rw [plain_text_output_of_ok perPage get_model openPdf merge_text pdf sort
      model hyphens page_range flatten_pdf workers WPT d' hd]
  · intro s hs
    simp only [paginated_plain_text_output, List.mem_map] at hs
    obtain ⟨page, _, rfl⟩ := hs
    exact pyStrip_idem _

/-- Witness for C8 at a concrete document and merge function. -/
theorem C8_plain_text_joins_paginated_witness :
    (_process_pdf openPdf0 (PyVal.doc doc1) false).2 = .ok doc1 ∧
    ((plain_text_output perPage0 () openPdf0 mt0 (PyVal.doc doc1) false none
        false none false none 10).2
      = .ok (String.intercalate "\n"
          (paginated_plain_text_output perPage0 () mt0 doc1 false none false
            none false none 10).2) ∧
     ∀ s ∈ (paginated_plain_text_output perPage0 () mt0 doc1 false none false
        none false none 10).2, pyStrip s = s) :=
  ⟨rfl, C8_plain_text_joins_paginated perPage0 () openPdf0 mt0 (PyVal.doc doc1)
    false none false none false none 10 doc1 rfl⟩

theorem process_pdf_flatten_trace (openPdf : String → PdfDocument)
    (pdf : PyVal) (d' : PdfDocument)
    (hd : (_process_pdf openPdf pdf true).2 = .ok d') :
    (_process_pdf openPdf pdf true).1 = [Event.initForms] := by
  cases pdf <;> simp_all [_process_pdf]

theorem initForms_not_mem_get_pages {M : Type}
    (perPage : PdfDocument → M → Bool → ℕ → Page) (get_model : M)
    (pdf_doc : PdfDocument) (model : Option M) (page_range : Option (List ℕ))
    (flatten_pdf : Bool) (workers : Option ℤ) (WPT : ℕ) :
    Event.initForms ∉
      (_get_pages perPage get_model pdf_doc model page_range flatten_pdf
        workers WPT).1 := by
  cases workers with
  | none => simp [_get_pages]
  | some w =>
      rw [get_pages_some_eq]
      by_cases h : min w (((page_range.getD (List.range pdf_doc.pageCount)).length / WPT : ℕ) : ℤ) ≤ 1
      · rw [if_pos h]
        simp
      · rw [if_neg h]
        simp

/-- C9: with flatten enabled, the `init_forms` mutation is applied exactly
once, on the parent document handle, strictly before any extraction or
worker dispatch: the run's event trace is `initForms` followed by the
extraction trace, and `initForms` never occurs again — in particular never
inside a worker — for both entry points. -/
theorem C9_flatten_once_before_dispatch {M : Type}
    (perPage : PdfDocument → M → Bool → ℕ → Page) (get_model : M)
    (openPdf : String → PdfDocument) (merge_text : Page → Bool → Bool → String)
    (postprocess_text : String → String)
    (handle_hyphens : String → Bool → String)
    (sort_blocks : List Block → List Block)
    (pdf : PyVal) (sort : Bool) (model : Option M) (hyphens keep_chars : Bool)
    (page_range : Option (List ℕ)) (workers : Option ℤ) (WPT : ℕ)
    (d' : PdfDocument)
    (hd : (_process_pdf openPdf pdf true).2 = .ok d') :
    (plain_text_output perPage get_model openPdf merge_text pdf sort model
        hyphens page_range true workers WPT).1
      = Event.initForms ::
          (_get_pages perPage get_model d' model page_range true workers WPT).1 ∧
    (dictionary_output perPage get_model openPdf postprocess_text
        handle_hyphens sort_blocks pdf sort model page_range true keep_chars
        workers WPT).1
      = Event.initForms ::
          (_get_pages perPage get_model d' model page_range true workers WPT).1 ∧
    Event.initForms ∉
      (_get_pages perPage get_model d' model page_range true workers WPT).1 := by
  have ht := process_pdf_flatten_trace openPdf pdf d' hd
  refine ⟨?_, ?_, initForms_not_mem_get_pages perPage get_model d' model
    page_range true workers WPT⟩
  · rw [plain_text_output_of_ok perPage get_model openPdf merge_text pdf sort
      model hyphens page_range true workers WPT d' hd]
    show (_process_pdf openPdf pdf true).1 ++ _ = _
    rw [ht]
    rfl
  · rw [dictionary_output_of_ok perPage get_model openPdf postprocess_text
      handle_hyphens sort_blocks pdf sort model page_range true keep_chars
      workers WPT d' hd]
    show (_process_pdf openPdf pdf true).1 ++ _ = _
    rw [ht]
    rfl

/-- Witness for C9 at a concrete document. -/
theorem C9_flatten_once_before_dispatch_witness :
    (_process_pdf openPdf0 (PyVal.doc doc1) true).2 = .ok (init_forms doc1) ∧
    ((plain_text_output perPage0 () openPdf0 mt0 (PyVal.doc doc1) false none
        false none true none 10).1
      = Event.initForms ::
          (_get_pages perPage0 () (init_forms doc1) none none true none 10).1 ∧
     (dictionary_output perPage0 () openPdf0 pt0 hh0 sb0 (PyVal.doc doc1)
        false none none true false none 10).1
      = Event.initForms ::
          (_get_pages perPage0 () (init_forms doc1) none none true none 10).1 ∧
     Event.initForms ∉
       (_get_pages perPage0 () (init_forms doc1) none none true none 10).1) :=
  ⟨rfl, C9_flatten_once_before_dispatch perPage0 () openPdf0 mt0 pt0 hh0 sb0
    (PyVal.doc doc1) false none false false none none 10 (init_forms doc1) rfl⟩

/-- A page whose only block has a normalized bbox, for observing
double-denormalization. -/
def pageD : Page :=
  { width := 2, height := 2
    blocks := [{ bbox := ⟨1, 1, 1, 1⟩, lines := [], extra := [] }] }

/-- C10: the assembly phase of `dictionary_output` works in place: it returns
references to the very same page objects it received, in the same order, with
each store cell overwritten by its processed version, so the raw normalized
inference output is not preserved; and re-invoking the assembly loop on the
returned value simply denormalizes the bboxes a second time (double-scaling)
instead of being rejected. -/
theorem C10_assembles_in_place (postprocess_text : String → String)
    (handle_hyphens : String → Bool → String)
    (sort_blocks : List Block → List Block) (keep_chars sort : Bool)
    (store : List Page) (i : ℕ) (hi : i < store.length) :
    (dictionary_output_assemble_mut postprocess_text handle_hyphens sort_blocks
        keep_chars sort store).2 = List.range store.length ∧
    (dictionary_output_assemble_mut postprocess_text handle_hyphens sort_blocks
        keep_chars sort store).1.get
        ⟨i, by simpa [dictionary_output_assemble_mut] using hi⟩
      = process_page postprocess_text handle_hyphens sort_blocks keep_chars sort
          (store.get ⟨i, hi⟩) ∧
    (process_page postprocess_text handle_hyphens sort_blocks false false
        (process_page postprocess_text handle_hyphens sort_blocks false false
          pageD)).blocks.map Block.bbox
      = [unnormalize_bbox (unnormalize_bbox ⟨1, 1, 1, 1⟩ 2 2) 2 2] ∧
    (process_page postprocess_text handle_hyphens sort_blocks false false
        (process_page postprocess_text handle_hyphens sort_blocks false false
          pageD)).blocks.map Block.bbox
      ≠ (process_page postprocess_text handle_hyphens sort_blocks false false
          pageD).blocks.map Block.bbox := by
  refine ⟨rfl, ?_, rfl, ?_⟩
  · simp [dictionary_output_assemble_mut]
  · norm_num [process_page, process_block, pageD, unnormalize_bbox, Rect.mk.injEq]

/-- Witness for C10 on a one-page store. -/
theorem C10_assembles_in_place_witness :
    0 < [pageD].length ∧
    ((dictionary_output_assemble_mut pt0 hh0 sb0 false false [pageD]).2
        = List.range [pageD].length ∧
     (dictionary_output_assemble_mut pt0 hh0 sb0 false false [pageD]).1.get
        ⟨0, by decide⟩
       = process_page pt0 hh0 sb0 false false ([pageD].get ⟨0, by decide⟩) ∧
     (process_page pt0 hh0 sb0 false false
        (process_page pt0 hh0 sb0 false false pageD)).blocks.map Block.bbox
       = [unnormalize_bbox (unnormalize_bbox ⟨1, 1, 1, 1⟩ 2 2) 2 2] ∧
     (process_page pt0 hh0 sb0 false false
        (process_page pt0 hh0 sb0 false false pageD)).blocks.map Block.bbox
       ≠ (process_page pt0 hh0 sb0 false false pageD).blocks.map Block.bbox) :=
  ⟨by decide, C10_assembles_in_place pt0 hh0 sb0 false false [pageD] 0 (by decide)⟩

end Pdftext

